import Mathlib

/-!
Verification of the Yagi type-translation and prototype-patching pipeline
(`src/yagi/src/typemanager.cc`) against its natural-language specification.

The development shallowly embeds `TypeManager`:
  - `TypeInfo` is the external tagged-union view of a foreign type (spec section 3),
    as consumed by `typemanager.cc`;
  - `TypeNodeData` / `FactoryState` model the decompiler engine's type registry
    (an arena of nodes plus a name-keyed map; node identity is the arena index);
  - `findByTypeInfo`, `parseTypeInfo`, `parseFunc` and `findById` follow the
    source line by line, threading the registry state explicitly;
  - `update` is `TypeManager::update`, the function-metadata patcher.

Machine integers: Ghidra's `int4` field offset is modelled by `int4cast`
(explicit truncation of the source's unsigned offset through `% 2^32` with
signed reinterpretation), mirroring the `static_cast<int4>(info.offset)` at
`typemanager.cc:137`. Fallible operations return `Except YagiError`.
-/

namespace Yagi

/-- Metatype tags of the engine's primitive nodes (`TYPE_*` constants used by
`typemanager.cc`). -/
inductive TypeMetatype where
  | TYPE_BOOL
  | TYPE_INT
  | TYPE_FLOAT
  | TYPE_VOID
  | TYPE_UNKNOWN
deriving DecidableEq, Repr

/-- Modelled from the spec: the external `TypeInfo` view (spec section 3), a
tagged union over pointer, bool, unicode, char, int, float, struct, void,
function, array and opaque kinds, with the attributes `typemanager.cc` reads:
`getName`, `getSize`, the pointee for pointers and arrays, the ordered field
list `(offset, name, type)` for structs, and for functions the prototype list
`[returnType, param1, ...]`, the optional calling-convention string
(`getCallingConv` throwing `UnknownCallingConvention` is an absent value), the
variadic flag and the parameter-name list. The concrete `TypeInfo` subclasses
live outside `src/`. -/
inductive TypeInfo where
  | ptr (name : String) (pointee : TypeInfo)
  | bool (name : String) (size : Nat)
  | unicode (name : String) (size : Nat)
  | char (name : String)
  | int (name : String) (size : Nat)
  | float (name : String) (size : Nat)
  | struct (name : String) (fields : List (Nat × String × TypeInfo))
  | void (name : String) (size : Nat)
  | func (name : String) (proto : List TypeInfo) (cc : Option String)
      (dotdotdot : Bool) (paramNames : List String)
  | array (name : String) (size : Nat) (element : TypeInfo)
  | other (name : String) (size : Nat)

/-- The `TypeInfo::getName` accessor. -/
def TypeInfo.getName : TypeInfo → String
  | .ptr n _ => n
  | .bool n _ => n
  | .unicode n _ => n
  | .char n => n
  | .int n _ => n
  | .float n _ => n
  | .struct n _ => n
  | .void n _ => n
  | .func n _ _ _ _ => n
  | .array n _ _ => n
  | .other n _ => n

/-- The `TypeInfo::toPtr` test combined with `PtrInfo::getPointedObject`:
for a pointer-tagged `TypeInfo` it yields the pointee, otherwise nothing. -/
def TypeInfo.toPtr : TypeInfo → Option TypeInfo
  | .ptr _ p => some p
  | _ => none

/-- Components of a function-tagged `TypeInfo` as read by `parseFunc` and
`update`: `getFuncPrototype` (`[returnType, params...]`), `getCallingConv`,
`isDotDotDot` and `getFuncParamName`. -/
structure FuncInfoParts where
  proto : List TypeInfo
  cc : Option String
  dotdotdot : Bool
  paramNames : List String

/-- The `TypeInfo::toFunc` test: the function view of a function-tagged
`TypeInfo`, nothing otherwise. -/
def TypeInfo.toFunc : TypeInfo → Option FuncInfoParts
  | .func _ proto cc dd pn => some ⟨proto, cc, dd, pn⟩
  | _ => none

/-- Target type-graph nodes, one constructor per node kind built by
`typemanager.cc`: `TypePointer`, `TypeBase`, `TypeUnicode`, `TypeChar`,
`TypeStruct`, `TypeArray` and the `getTypeCode` code node. Constructor
arguments mirror the C++ constructor arguments; struct field offsets are
`Int` because the engine stores them as `int4`. -/
inductive TypeNodeData where
  | ptrNode (addrSize : Nat) (pointee : Nat) (wordSize : Nat) (name : String)
  | baseNode (size : Nat) (meta : TypeMetatype) (name : String)
  | unicodeNode (name : String) (size : Nat)
  | charNode (name : String)
  | structNode (name : String) (fields : List (Int × String × Nat))
  | arrayNode (count : Nat) (element : Nat) (name : String)
  | codeNode (model : String) (ret : Nat) (params : List Nat) (dotdotdot : Bool)
deriving DecidableEq, Repr

/-- Modelled from the spec: the architecture-side constants `typemanager.cc`
reads from `glb` and `m_archi` (spec section 6): default code-space address
size and word size, the registry of named calling-convention models
(`hasModel`), the architecture's default convention name (`getDefaultCC`) and
the engine's core void type returned by `getTypeVoid`. These never change
during translation. -/
structure Arch where
  addrSize : Nat
  wordSize : Nat
  models : List String
  defaultCC : String
  voidId : Nat
deriving DecidableEq, Repr

/-- Modelled from the spec: the mutable state of the engine's type registry
(spec sections 3 and 6) — an arena owning all nodes (node identity is the
arena index) plus the name-keyed lookup table maintained by
`TypeFactory::setName` and queried by `findByName`. -/
structure FactoryState where
  arena : List TypeNodeData
  registry : List (String × Nat)
deriving DecidableEq, Repr

/-- Name lookup in the registry table; the most recent registration of a name
wins, matching the spec's invariant that each name maps to one node. -/
def lookupReg : List (String × Nat) → String → Option Nat
  | [], _ => none
  | (m, id) :: rest, n => if m = n then some id else lookupReg rest n

/-- Allocate a fresh node in the arena (the `new ...` allocations of
`parseTypeInfo`; ownership passes to the registry, spec section 3). -/
def allocNode (d : TypeNodeData) (s : FactoryState) : Nat × FactoryState :=
  (s.arena.length, { s with arena := s.arena ++ [d] })

/-- Modelled from the spec: `TypeFactory::setName` (engine side, outside
`src/`) — registers a node in the name-keyed table so later `findByName`
lookups return it (spec section 3: a node is registered under its name, and
lookups by name return the cached node). -/
def setName (name : String) (id : Nat) (s : FactoryState) : FactoryState :=
  { s with registry := (name, id) :: s.registry }

/-- Allocate a node and register it under `name`: the `new` + `setName`
pattern of every branch of `parseTypeInfo`. -/
def allocReg (d : TypeNodeData) (name : String) (s : FactoryState) : Nat × FactoryState :=
  let r := allocNode d s
  (r.1, setName name r.1 r.2)

/-- The `static_cast<int4>(info.offset)` at `typemanager.cc:137`: the source's
unsigned field offset truncated to a signed 32-bit value. -/
def int4cast (x : Nat) : Int :=
  let r := x % 4294967296
  if r < 2147483648 then (r : Int) else (r : Int) - 4294967296

/-- Calling-convention resolution of `parseFunc` (`typemanager.cc:57`-`70`):
start from the fixed default `"__fastcall"`; an explicit convention from the
source replaces it (an `UnknownCallingConvention` throw, i.e. an absent value,
is swallowed and leaves the default); finally, a name with no registered model
is replaced by the architecture's default convention. Total: resolution never
raises. -/
def resolveCC (A : Arch) (ccReq : Option String) : String :=
  let cc := "__fastcall"
  let cc2 := match ccReq with
    | some c => c
    | none => cc
  if A.models.contains cc2 then cc2 else A.defaultCC

mutual

/-- The translate-by-reference entry point `TypeManager::findByTypeInfo`
(`typemanager.cc:192`-`201`): try `findByName` on the type's name (modelled
from the spec, section 4.1, as the registry lookup whose miss is the locally
recovered "name not found" condition) and on a hit return the cached node
without recursing; on a miss fall through to the full translation. -/
def findByTypeInfo (A : Arch) (t : TypeInfo) (s : FactoryState) : Nat × FactoryState :=
  match lookupReg s.registry t.getName with
  | some id => (id, s)
  | none => parseTypeInfo A t s
termination_by (sizeOf t, 1)

/-- The translator `TypeManager::parseTypeInfo` (`typemanager.cc:76`-`189`),
branch for branch: pointer, bool, unicode, char, int, float, struct (node
created and registered under its name before the fields are translated, then
`setFields` populates the field list), void (size 0 replaced by the address
size), function (delegated to `parseFunc`, not registered here), array
(size 0 degrades to a pointer), and the `TYPE_UNKNOWN` catch-all. Total:
translation terminates on every `TypeInfo`. -/
def parseTypeInfo (A : Arch) (t : TypeInfo) (s : FactoryState) : Nat × FactoryState :=
  match t with
  | .ptr name pointee =>
    let r := findByTypeInfo A pointee s
    allocReg (.ptrNode A.addrSize r.1 A.wordSize name) name r.2
  | .bool name size => allocReg (.baseNode size .TYPE_BOOL name) name s
  | .unicode name size => allocReg (.unicodeNode name size) name s
  | .char name => allocReg (.charNode name) name s
  | .int name size => allocReg (.baseNode size .TYPE_INT name) name s
  | .float name size => allocReg (.baseNode size .TYPE_FLOAT name) name s
  | .struct name fields =>
    let v := s.arena.length
    let s1 := setName name v { s with arena := s.arena ++ [.structNode name []] }
    let r := parseFields A fields s1
    (v, { r.2 with arena := r.2.arena.set v (.structNode name r.1) })
  | .void name size =>
    let sz := if size = 0 then A.addrSize else size
    allocReg (.baseNode sz .TYPE_VOID name) name s
  | .func _ proto cc dd _ => parseFunc A proto cc dd s
  | .array name size element =>
    if size > 0 then
      let r := findByTypeInfo A element s
      allocReg (.arrayNode size r.1 name) name r.2
    else
      let r := findByTypeInfo A element s
      allocReg (.ptrNode A.addrSize r.1 A.wordSize name) name r.2
  | .other name size => allocReg (.baseNode size .TYPE_UNKNOWN name) name s
termination_by (sizeOf t, 0)

/-- The prototype builder `TypeManager::parseFunc` (`typemanager.cc:37`-`73`):
return type defaults to the engine's void type and is overwritten by the
translation of the prototype's first element when present; the remaining
elements are translated in order as parameter types; the calling convention
is resolved by `resolveCC`; the code node is built from the resolved model,
return type, parameter types and variadic flag. -/
def parseFunc (A : Arch) (proto : List TypeInfo) (cc : Option String) (dd : Bool)
    (s : FactoryState) : Nat × FactoryState :=
  let retType := A.voidId
  match proto with
  | [] => allocNode (.codeNode (resolveCC A cc) retType [] dd) s
  | ret :: params =>
    let r := findByTypeInfo A ret s
    let ps := findList A params r.2
    allocNode (.codeNode (resolveCC A cc) r.1 ps.1 dd) ps.2
termination_by (sizeOf proto, 0)

/-- The `std::transform` over the parameter sublist in `parseFunc`
(`typemanager.cc:49`-`54`): translate each parameter type in order, threading
the registry state left to right. -/
def findList (A : Arch) (ts : List TypeInfo) (s : FactoryState) :
    List Nat × FactoryState :=
  match ts with
  | [] => ([], s)
  | t :: rest =>
    let r := findByTypeInfo A t s
    let rs := findList A rest r.2
    (r.1 :: rs.1, rs.2)
termination_by (sizeOf ts, 0)

/-- The `std::transform` over the struct fields in `parseTypeInfo`
(`typemanager.cc:134`-`139`): each source field `(offset, name, type)` becomes
`(static_cast<int4>(offset), name, translatedType)` in declaration order. -/
def parseFields (A : Arch) (fs : List (Nat × String × TypeInfo)) (s : FactoryState) :
    List (Int × String × Nat) × FactoryState :=
  match fs with
  | [] => ([], s)
  | (off, fname, fty) :: rest =>
    let r := findByTypeInfo A fty s
    let rs := parseFields A rest r.2
    ((int4cast off, fname, r.1) :: rs.1, rs.2)
termination_by (sizeOf fs, 0)

end

/-- Failures raised by `TypeManager` (`UnknownTypeError`,
`SymbolIsNotAFunction`), each carrying the name passed to the exception
constructor. -/
inductive YagiError where
  | unknownTypeError (name : String)
  | symbolIsNotAFunction (name : String)
deriving DecidableEq, Repr

/-- The strict resolution entry point `TypeManager::findById`
(`typemanager.cc:17`-`34`): first the base-factory registry lookup (the cache);
on a miss, query the external type-info provider by name
(`getTypeInfoFactory().build(n)`); if the provider has no such type, raise
`UnknownTypeError`; otherwise translate the provider's `TypeInfo`. The
`uint8 id` argument of the C++ signature only keys the base lookup and is
not modelled. -/
def findById (A : Arch) (providerByName : String → Option TypeInfo) (n : String)
    (s : FactoryState) : Except YagiError (Nat × FactoryState) :=
  match lookupReg s.registry n with
  | some id => .ok (id, s)
  | none =>
    match providerByName n with
    | none => .error (.unknownTypeError n)
    | some ti => .ok (parseTypeInfo A ti s)

/-- Modelled from the spec: the engine's `PrototypePieces` (spec section 3,
"Prototype") — calling-convention model, return type, ordered parameter
types, ordered parameter names and the variadic flag. -/
structure PrototypePieces where
  model : String
  outtype : Nat
  intypes : List Nat
  innames : List String
  dotdotdot : Bool
deriving DecidableEq, Repr

/-- Modelled from the spec: `FuncProto::getPieces` on the prototype of a
freshly built code node (engine side, outside `src/`) — it reports the node's
model, return type, parameter types and variadic flag, with a parameter-name
list parallel to the parameter types (empty names, since the node was built
from types alone). Any other node yields empty pieces; `update` only calls it
on the code node just built by `parseFunc`. -/
def getPieces (s : FactoryState) (id : Nat) : PrototypePieces :=
  match s.arena.get? id with
  | some (.codeNode m r ps dd) =>
    { model := m, outtype := r, intypes := ps, innames := ps.map (fun _ => ""), dotdotdot := dd }
  | _ => { model := "", outtype := 0, intypes := [], innames := [], dotdotdot := false }

/-- Modelled from the spec: the live function record (spec section 6) —
address, name, the mutable prototype pieces (written by
`FuncProto::setPieces`), and the out-of-band inject attribute written by
`setInjectAttribute` through the XML round trip. -/
structure Funcdata where
  address : Nat
  name : String
  proto : PrototypePieces
  injectAttr : Option String
deriving DecidableEq, Repr

/-- The single pointer unwrap at `typemanager.cc:212`-`217`: if the provider's
type is a pointer, continue with its pointee, otherwise with the type
itself. -/
def unwrapPtr (t : TypeInfo) : TypeInfo :=
  match t.toPtr with
  | some p => p
  | none => t

/-- The name-splice step of `update` (`typemanager.cc:233`-`239`): when the
source's parameter-name list has the same length as the name list of the
pieces read from the freshly derived prototype, commit those pieces, with the
new names substituted in, onto the live function via `setPieces`; on a length
mismatch the function is left untouched. -/
def patchNames (fd : Funcdata) (pieces : PrototypePieces) (pnames : List String) :
    Funcdata :=
  if pnames.length = pieces.innames.length then
    { fd with proto := { pieces with innames := pnames } }
  else fd

/-- The injection step of `update` (`typemanager.cc:241`-`245`): a function
named `"alloca_probe"` receives the inject attribute (via the XML round trip
of `setInjectAttribute`, modelled as setting the attribute directly). -/
def injectStep (fd : Funcdata) : Funcdata :=
  if fd.name = "alloca_probe" then { fd with injectAttr := some "alloca_probe" }
  else fd

/-- The metadata patcher `TypeManager::update` (`typemanager.cc:204`-`246`):
query the provider for the type at the function's address (absent: a silent
no-op); unwrap one level of pointer; fail with `SymbolIsNotAFunction` naming
the (unwrapped) type when it is not function-tagged; otherwise re-derive the
prototype with `parseFunc`, read its pieces with `getPieces`, apply
`patchNames` and then `injectStep`. -/
def update (A : Arch) (provider : Nat → Option TypeInfo) (fd : Funcdata)
    (s : FactoryState) : Except YagiError (Funcdata × FactoryState) :=
  match provider fd.address with
  | none => .ok (fd, s)
  | some t0 =>
    let t1 := unwrapPtr t0
    match t1.toFunc with
    | none => .error (.symbolIsNotAFunction t1.getName)
    | some fi =>
      let r := parseFunc A fi.proto fi.cc fi.dotdotdot s
      let pieces := getPieces r.2 r.1
      .ok (injectStep (patchNames fd pieces fi.paramNames), r.2)

/-- Parameter count of a source function prototype list
`[returnType, params...]`: everything after the head. -/
def numParams : List TypeInfo → Nat
  | [] => 0
  | _ :: params => params.length

/-- Fixture: a small architecture with `"__fastcall"` registered and
`"__stdcall"` as the configured default convention. -/
def archX : Arch :=
  { addrSize := 8, wordSize := 4, models := ["__fastcall"], defaultCC := "__stdcall", voidId := 0 }

/-- Fixture: an empty registry state. -/
def emptyState : FactoryState := { arena := [], registry := [] }

/-- Fixture: a live function named `"f"` whose existing prototype has two
parameters. -/
def fd0 : Funcdata :=
  { address := 4096, name := "f",
    proto := { model := "m0", outtype := 42, intypes := [5, 6],
               innames := ["x", "y"], dotdotdot := true },
    injectAttr := none }

/-- Looking up an element just appended at the end of a list. -/
theorem get?_append_len {α : Type} (l : List α) (d : α) :
    (l ++ [d]).get? l.length = some d := by
  induction l with
  | nil => rfl
  | cons a l ih => simpa using ih

/-- Looking up the element just written by `List.set`. -/
theorem get?_set_self {α : Type} :
    ∀ (l : List α) (i : Nat) (d : α), i < l.length → (l.set i d).get? i = some d := by
  intro l
  induction l with
  | nil => intro i d h; simp at h
  | cons a l ih =>
    intro i d h
    cases i with
    | zero => rfl
    | succ i => simpa using ih i d (by simpa using h)

/-- A freshly registered name is found by the registry lookup. -/
theorem lookupReg_cons_self (reg : List (String × Nat)) (n : String) (id : Nat) :
    lookupReg ((n, id) :: reg) n = some id := by
  simp [lookupReg]

/-- Registering a different name does not disturb a lookup. -/
theorem lookupReg_cons_ne (reg : List (String × Nat)) (m n : String) (id : Nat)
    (h : m ≠ n) : lookupReg ((m, id) :: reg) n = lookupReg reg n := by
  simp [lookupReg, h]

/-- Growth relation between two registry states: the arena never shrinks and
every registered name stays registered to the same node. Every translation
step maps a state to a larger one. -/
def RegLe (s s2 : FactoryState) : Prop :=
  s.arena.length ≤ s2.arena.length ∧
    ∀ n v, lookupReg s.registry n = some v → lookupReg s2.registry n = some v

theorem regLe_refl (s : FactoryState) : RegLe s s :=
  ⟨le_refl _, fun _ _ h => h⟩

theorem regLe_trans {a b c : FactoryState} (h1 : RegLe a b) (h2 : RegLe b c) :
    RegLe a c :=
  ⟨le_trans h1.1 h2.1, fun n v h => h2.2 n v (h1.2 n v h)⟩

theorem regLe_allocNode (d : TypeNodeData) (s : FactoryState) :
    RegLe s (allocNode d s).2 := by
  constructor
  · simp [allocNode]
  · intro n v h
    simpa [allocNode] using h

/-- One `new` + `setName` step: the arena grows and every name other than the
one being (re-)registered keeps its binding. -/
theorem allocReg_parse_step {s0 : FactoryState} (d : TypeNodeData) (name : String)
    (s : FactoryState) (h : RegLe s0 s) :
    s0.arena.length ≤ (allocReg d name s).2.arena.length ∧
    ∀ n v, lookupReg s0.registry n = some v → name ≠ n →
      lookupReg (allocReg d name s).2.registry n = some v := by
  constructor
  · have := h.1
    simp [allocReg, allocNode, setName]
    omega
  · intro n v hv hne
    have := h.2 n v hv
    simpa [allocReg, allocNode, setName, lookupReg, hne] using this

/-- Cache hit: `findByTypeInfo` returns the registered node and leaves the
state untouched. -/
theorem find_hit (A : Arch) (t : TypeInfo) (s : FactoryState) (id : Nat)
    (h : lookupReg s.registry t.getName = some id) :
    findByTypeInfo A t s = (id, s) := by
  simp [findByTypeInfo, h]

/-- Main invariant of the translator, by the joint functional induction over
the mutual recursion: `findByTypeInfo` only grows the state — the arena is
extended and every registered name keeps its binding. (Inside the recursion a
name is only ever registered after a lookup miss on it, so no established
binding is shadowed.) -/
theorem find_regLe (A : Arch) (t : TypeInfo) (s : FactoryState) :
    RegLe s (findByTypeInfo A t s).2 := by
  refine findByTypeInfo.induct A
    (fun t s => RegLe s (findByTypeInfo A t s).2)
    (fun t s => s.arena.length ≤ (parseTypeInfo A t s).2.arena.length ∧
      ∀ n v, lookupReg s.registry n = some v → t.getName ≠ n →
        lookupReg (parseTypeInfo A t s).2.registry n = some v)
    (fun proto cc dd s => RegLe s (parseFunc A proto cc dd s).2)
    (fun ts s => RegLe s (findList A ts s).2)
    (fun fs s => RegLe s (parseFields A fs s).2)
    ?_ ?_ ?_ ?_ ?_ ?_ ?_ ?_ ?_ ?_ ?_ ?_ ?_ ?_ ?_ ?_ ?_ ?_ ?_ ?_ t s
  · intro t s id h
    rw [find_hit A t s id h]
    exact regLe_refl s
  · intro t s hmiss hp
    simp only [findByTypeInfo, hmiss]
    refine ⟨hp.1, fun n v hv => hp.2 n v hv ?_⟩
    intro heq
    rw [heq, hv] at hmiss
    exact Option.noConfusion hmiss
  · intro s n pointee h1
    simp only [parseTypeInfo, TypeInfo.getName]
    exact allocReg_parse_step _ _ _ h1
  · intro s n size
    simp only [parseTypeInfo, TypeInfo.getName]
    exact allocReg_parse_step _ _ _ (regLe_refl s)
  · intro s n size
    simp only [parseTypeInfo, TypeInfo.getName]
    exact allocReg_parse_step _ _ _ (regLe_refl s)
  · intro s n
    simp only [parseTypeInfo, TypeInfo.getName]
    exact allocReg_parse_step _ _ _ (regLe_refl s)
  · intro s n size
    simp only [parseTypeInfo, TypeInfo.getName]
    exact allocReg_parse_step _ _ _ (regLe_refl s)
  · intro s n size
    simp only [parseTypeInfo, TypeInfo.getName]
    exact allocReg_parse_step _ _ _ (regLe_refl s)
  · intro s n fields v s1 h5
    have h5x : RegLe (setName n s.arena.length
          { s with arena := s.arena ++ [TypeNodeData.structNode n []] })
        (parseFields A fields (setName n s.arena.length
          { s with arena := s.arena ++ [TypeNodeData.structNode n []] })).2 := h5
    simp only [parseTypeInfo, TypeInfo.getName]
    constructor
    · have h1 := h5x.1
      simp only [setName, List.length_append, List.length_singleton, List.length_set] at h1 ⊢
      omega
    · intro n0 v0 hv0 hne
      refine h5x.2 n0 v0 ?_
      simp only [setName]
      rw [lookupReg_cons_ne _ _ _ _ hne]
      exact hv0
  · intro s n size
    simp only [parseTypeInfo, TypeInfo.getName]
    exact allocReg_parse_step _ _ _ (regLe_refl s)
  · intro s n proto cc dd pnames h3
    simp only [parseTypeInfo, TypeInfo.getName]
    exact ⟨h3.1, fun n0 v0 hv0 _ => h3.2 n0 v0 hv0⟩
  · intro s n size element hgt h1
    simp only [parseTypeInfo, TypeInfo.getName, if_pos hgt]
    exact allocReg_parse_step _ _ _ h1
  · intro s n size element hgt h1
    simp only [parseTypeInfo, TypeInfo.getName, if_neg hgt]
    exact allocReg_parse_step _ _ _ h1
  · intro s n size
    simp only [parseTypeInfo, TypeInfo.getName]
    exact allocReg_parse_step _ _ _ (regLe_refl s)
  · intro cc dd s
    simp only [parseFunc]
    exact regLe_allocNode _ _
  · intro cc dd s ret params r h1 h4
    simp only [parseFunc]
    exact regLe_trans (regLe_trans h1 h4) (regLe_allocNode _ _)
  · intro s
    simp only [findList]
    exact regLe_refl s
  · intro s ret params r h1 h4
    simp only [findList]
    exact regLe_trans h1 h4
  · intro s
    simp only [parseFields]
    exact regLe_refl s
  · intro s off fname fty rest r h1 h5
    simp only [parseFields]
    exact regLe_trans h1 h5

/-- Translating a struct's fields only grows the state. -/
theorem parseFields_regLe (A : Arch) :
    ∀ (fs : List (Nat × String × TypeInfo)) (s : FactoryState),
      RegLe s (parseFields A fs s).2 := by
  intro fs
  induction fs with
  | nil =>
    intro s
    simp only [parseFields]
    exact regLe_refl s
  | cons f rest ih =>
    intro s
    obtain ⟨off, fname, fty⟩ := f
    simp only [parseFields]
    exact regLe_trans (find_regLe A fty s) (ih _)

/-- Field translation is index-preserving: it produces one output per source
field. -/
theorem parseFields_length (A : Arch) :
    ∀ (fs : List (Nat × String × TypeInfo)) (s : FactoryState),
      (parseFields A fs s).1.length = fs.length := by
  intro fs
  induction fs with
  | nil => intro s; simp [parseFields]
  | cons f rest ih =>
    intro s
    obtain ⟨off, fname, fty⟩ := f
    simp [parseFields, ih]

/-- Shape of the translated field at index `j`: the source offset passes
through `int4cast`, the field name is kept, and — when some name `n` is
registered to node `v` on entry and the field's type carries that name — the
field resolves to that very node `v` (the cache hit in `findByTypeInfo`). -/
theorem parseFields_get (A : Arch) :
    ∀ (fs : List (Nat × String × TypeInfo)) (s : FactoryState) (j : Nat)
      (off : Nat) (fname : String) (fty : TypeInfo),
      fs.get? j = some (off, fname, fty) →
      ∃ tid, (parseFields A fs s).1.get? j = some (int4cast off, fname, tid) ∧
        ∀ n v, lookupReg s.registry n = some v → fty.getName = n → tid = v := by
  intro fs
  induction fs with
  | nil => intro s j off fname fty hj; simp at hj
  | cons f rest ih =>
    intro s j off fname fty hj
    cases j with
    | zero =>
      have hf : f = (off, fname, fty) := by simpa using hj
      subst hf
      refine ⟨(findByTypeInfo A fty s).1, by simp [parseFields], ?_⟩
      intro n v hv hname
      have hlook : lookupReg s.registry fty.getName = some v := by
        rw [hname]; exact hv
      rw [find_hit A fty s v hlook]
    | succ j =>
      have hj2 : rest.get? j = some (off, fname, fty) := by simpa using hj
      obtain ⟨off0, fname0, fty0⟩ := f
      obtain ⟨tid, hget, hres⟩ :=
        ih (findByTypeInfo A fty0 s).2 j off fname fty hj2
      refine ⟨tid, by simpa [parseFields] using hget, ?_⟩
      intro n v hv hname
      exact hres n v ((find_regLe A fty0 s).2 n v hv) hname

/-- Parameter translation produces one node per parameter. -/
theorem findList_length (A : Arch) :
    ∀ (ts : List TypeInfo) (s : FactoryState),
      (findList A ts s).1.length = ts.length := by
  intro ts
  induction ts with
  | nil => intro s; simp [findList]
  | cons t rest ih =>
    intro s
    simp [findList, ih]

/-- The prototype builder always ends by allocating a code node carrying the
resolved calling-convention model, some return type, one parameter type per
source parameter, and the source's variadic flag. -/
theorem parseFunc_node (A : Arch) (proto : List TypeInfo) (cc : Option String)
    (dd : Bool) (s : FactoryState) :
    ∃ rid pids, pids.length = numParams proto ∧
      (parseFunc A proto cc dd s).2.arena.get? (parseFunc A proto cc dd s).1 =
        some (.codeNode (resolveCC A cc) rid pids dd) := by
  cases proto with
  | nil =>
    refine ⟨A.voidId, [], rfl, ?_⟩
    simp [parseFunc, allocNode, get?_append_len]
  | cons ret params =>
    refine ⟨(findByTypeInfo A ret s).1,
      (findList A params (findByTypeInfo A ret s).2).1, ?_, ?_⟩
    · simp [numParams, findList_length]
    · simp [parseFunc, allocNode, get?_append_len]

/-- Reading the pieces of the prototype just built by `parseFunc`: the model
is the resolved convention, the parameter-name list is parallel to the
parameter types (hence has `numParams` entries), and the variadic flag is the
source's. -/
theorem getPieces_parseFunc (A : Arch) (proto : List TypeInfo) (cc : Option String)
    (dd : Bool) (s : FactoryState) :
    ∃ rid pids, pids.length = numParams proto ∧
      getPieces (parseFunc A proto cc dd s).2 (parseFunc A proto cc dd s).1 =
        { model := resolveCC A cc, outtype := rid, intypes := pids,
          innames := pids.map (fun _ => ""), dotdotdot := dd } := by
  obtain ⟨rid, pids, hlen, hnode⟩ := parseFunc_node A proto cc dd s
  refine ⟨rid, pids, hlen, ?_⟩
  unfold getPieces
  rw [hnode]

/-- The injection step never touches the function's name, address or
prototype. -/
theorem injectStep_fields (fd : Funcdata) :
    (injectStep fd).name = fd.name ∧ (injectStep fd).address = fd.address ∧
    (injectStep fd).proto = fd.proto := by
  unfold injectStep
  by_cases h : fd.name = "alloca_probe" <;> simp [h]

/-- The name-splice step never touches the function's name or address. -/
theorem patchNames_fields (fd : Funcdata) (pieces : PrototypePieces)
    (pnames : List String) :
    (patchNames fd pieces pnames).name = fd.name ∧
    (patchNames fd pieces pnames).address = fd.address := by
  unfold patchNames
  by_cases h : pnames.length = pieces.innames.length <;> simp [h]

/-- The prototype written by the name-splice step. -/
theorem patchNames_proto (fd : Funcdata) (pieces : PrototypePieces)
    (pnames : List String) :
    (patchNames fd pieces pnames).proto =
      (if pnames.length = pieces.innames.length then { pieces with innames := pnames }
       else fd.proto) := by
  unfold patchNames
  by_cases h : pnames.length = pieces.innames.length <;> simp [h]

/-- Unfolding `update` when the provider reports a plain function type at the
function's address. -/
theorem update_func_eq (A : Arch) (fd : Funcdata) (s : FactoryState) (fname : String)
    (proto : List TypeInfo) (cc : Option String) (dd : Bool) (pnames : List String) :
    update A (fun _ => some (.func fname proto cc dd pnames)) fd s =
      .ok (injectStep (patchNames fd
          (getPieces (parseFunc A proto cc dd s).2 (parseFunc A proto cc dd s).1) pnames),
        (parseFunc A proto cc dd s).2) := rfl

/-- Behaviour of `update` on a function-typed provider result: the state is
the one left by the prototype re-derivation, the function's name and address
are untouched, and the committed prototype is the freshly derived pieces with
the source's names substituted when the name count matches the derived
parameter count — otherwise the function's old prototype. -/
theorem update_func_spec (A : Arch) (fd : Funcdata) (s : FactoryState) (fname : String)
    (proto : List TypeInfo) (cc : Option String) (dd : Bool) (pnames : List String) :
    ∃ fd2, update A (fun _ => some (.func fname proto cc dd pnames)) fd s
        = .ok (fd2, (parseFunc A proto cc dd s).2) ∧
      fd2.name = fd.name ∧ fd2.address = fd.address ∧
      fd2.proto = (if pnames.length = numParams proto
        then { getPieces (parseFunc A proto cc dd s).2 (parseFunc A proto cc dd s).1 with
               innames := pnames }
        else fd.proto) := by
  obtain ⟨rid, pids, hlen, hp⟩ := getPieces_parseFunc A proto cc dd s
  have hplen : (getPieces (parseFunc A proto cc dd s).2
      (parseFunc A proto cc dd s).1).innames.length = numParams proto := by
    rw [hp]
    simpa using hlen
  refine ⟨_, update_func_eq A fd s fname proto cc dd pnames, ?_, ?_, ?_⟩
  · exact (injectStep_fields _).1.trans (patchNames_fields _ _ _).1
  · exact (injectStep_fields _).2.1.trans (patchNames_fields _ _ _).2
  · rw [(injectStep_fields _).2.2, patchNames_proto, hplen]

/-- Fixture: a live function named `"g"` whose existing prototype has one
parameter, a nonzero return type and the variadic flag set. -/
def fdg : Funcdata :=
  { address := 4096, name := "g",
    proto := { model := "m0", outtype := 42, intypes := [5],
               innames := ["x"], dotdotdot := true },
    injectAttr := none }

/-- Concrete run: translating `int` into the empty registry allocates node 0
and registers it. -/
theorem eval_find_int :
    findByTypeInfo archX (.int "int" 4) emptyState
      = (0, { arena := [.baseNode 4 .TYPE_INT "int"], registry := [("int", 0)] }) := by
  simp [findByTypeInfo, parseTypeInfo, lookupReg, allocReg, allocNode, setName, emptyState,
    TypeInfo.getName]

/-- Concrete run: the prototype `[int, int]` (one `int` return, one `int`
parameter) with no convention builds code node 1 with the `"__fastcall"`
model. -/
theorem eval_parseFunc_ii :
    parseFunc archX [.int "int" 4, .int "int" 4] none false emptyState
      = (1, { arena := [.baseNode 4 .TYPE_INT "int", .codeNode "__fastcall" 0 [0] false],
              registry := [("int", 0)] }) := by
  have hcc : resolveCC archX none = "__fastcall" := rfl
  simp [parseFunc, findList, findByTypeInfo, parseTypeInfo, lookupReg, allocReg, allocNode,
    setName, hcc, emptyState, TypeInfo.getName]

/-- Concrete run: the pieces read back from that derived prototype. -/
theorem eval_pieces_ii :
    getPieces (parseFunc archX [.int "int" 4, .int "int" 4] none false emptyState).2
        (parseFunc archX [.int "int" 4, .int "int" 4] none false emptyState).1
      = { model := "__fastcall", outtype := 0, intypes := [0], innames := [""],
          dotdotdot := false } := by
  rw [eval_parseFunc_ii]
  rfl

/-- Concrete run: a struct with a single field at source offset `2^31`; the
stored field offset is the truncated `-2^31`. -/
theorem eval_struct_big :
    parseTypeInfo archX (.struct "S" [(2147483648, "f", .int "int" 4)]) emptyState
      = (0, { arena := [.structNode "S" [(-2147483648, "f", 1)], .baseNode 4 .TYPE_INT "int"],
              registry := [("int", 1), ("S", 0)] }) := by
  simp [parseTypeInfo, parseFields, findByTypeInfo, lookupReg, allocReg, allocNode, setName,
    emptyState, TypeInfo.getName, int4cast]

/-- Truncation is the identity below `2^31`. -/
theorem int4cast_small (x : Nat) (h : x < 2147483648) : int4cast x = (x : Int) := by
  unfold int4cast
  rw [Nat.mod_eq_of_lt (by omega)]
  simp [h]

/-- C1: for a struct `TypeInfo` one of whose fields refers back to the
enclosing struct by its own name, translation terminates (the embedding's
translator is a total function) and the field's translated type is exactly —
arena-index-identically — the enclosing struct node: the struct node is
registered under its name before the fields are translated, so the field's
`findByTypeInfo` is a cache hit on that very node. -/
theorem struct_self_reference (A : Arch) (name : String)
    (fields : List (Nat × String × TypeInfo)) (s : FactoryState) (j off : Nat)
    (fn : String) (fty : TypeInfo)
    (hj : fields.get? j = some (off, fn, fty)) (hself : fty.getName = name) :
    ∃ flds,
      (parseTypeInfo A (.struct name fields) s).2.arena.get?
          (parseTypeInfo A (.struct name fields) s).1 = some (.structNode name flds) ∧
      flds.length = fields.length ∧
      flds.get? j = some (int4cast off, fn, (parseTypeInfo A (.struct name fields) s).1) := by
  simp only [parseTypeInfo]
  obtain ⟨tid, hget, hres⟩ := parseFields_get A fields
    (setName name s.arena.length { s with arena := s.arena ++ [TypeNodeData.structNode name []] })
    j off fn fty hj
  have hlook : lookupReg (setName name s.arena.length
      { s with arena := s.arena ++ [TypeNodeData.structNode name []] }).registry name
      = some s.arena.length := by
    simp [setName, lookupReg_cons_self]
  have htid := hres name s.arena.length hlook hself
  subst htid
  refine ⟨(parseFields A fields (setName name s.arena.length
      { s with arena := s.arena ++ [TypeNodeData.structNode name []] })).1, ?_,
    parseFields_length A fields _, hget⟩
  have hlt : s.arena.length < (parseFields A fields (setName name s.arena.length
      { s with arena := s.arena ++ [TypeNodeData.structNode name []] })).2.arena.length := by
    have hmono := (parseFields_regLe A fields (setName name s.arena.length
      { s with arena := s.arena ++ [TypeNodeData.structNode name []] })).1
    have h2 : (setName name s.arena.length
        { s with arena := s.arena ++ [TypeNodeData.structNode name []] }).arena.length
        = s.arena.length + 1 := by
      simp [setName]
    omega
  exact get?_set_self _ _ _ hlt

/-- C1 witness: the classic `Node { next : Node, value : int32 }` example; the
`next` field, whose type description carries the struct's own name, resolves
to the struct node itself. -/
theorem struct_self_reference_witness :
    (([(0, "next", TypeInfo.struct "Node" []), (8, "value", TypeInfo.int "int" 4)]
        : List (Nat × String × TypeInfo)).get? 0
      = some (0, "next", TypeInfo.struct "Node" [])) ∧
    ((TypeInfo.struct "Node" []).getName = "Node") ∧
    ∃ flds,
      (parseTypeInfo archX (.struct "Node"
          [(0, "next", .struct "Node" []), (8, "value", .int "int" 4)]) emptyState).2.arena.get?
        (parseTypeInfo archX (.struct "Node"
          [(0, "next", .struct "Node" []), (8, "value", .int "int" 4)]) emptyState).1
      = some (.structNode "Node" flds) ∧
      flds.length = 2 ∧
      flds.get? 0 = some (int4cast 0, "next",
        (parseTypeInfo archX (.struct "Node"
          [(0, "next", .struct "Node" []), (8, "value", .int "int" 4)]) emptyState).1) :=
  ⟨rfl, rfl, struct_self_reference archX "Node"
    [(0, "next", .struct "Node" []), (8, "value", .int "int" 4)]
    emptyState 0 0 "next" (.struct "Node" []) rfl rfl⟩

/-- C2 counterexample: the live function `fd0` has two existing parameters,
the provider's function type re-derives a one-parameter prototype with a
one-entry name list; the patch IS applied (the names become `["a"]`) even
though the new-name count (1) differs from the live function's existing
parameter count (2) — the code compares against the re-derived count, not the
existing one. -/
theorem param_patch_counterexample :
    ∃ fd2 s2,
      update archX (fun _ => some (.func "ft" [.int "int" 4, .int "int" 4] none false ["a"]))
          fd0 emptyState = .ok (fd2, s2) ∧
      fd2.proto.innames = ["a"] ∧
      fd0.proto.innames.length = 2 ∧
      (["a"] : List String).length ≠ fd0.proto.innames.length := by
  refine ⟨_, _, update_func_eq archX fd0 emptyState "ft" _ none false ["a"], ?_, rfl, by decide⟩
  rw [(injectStep_fields _).2.2, patchNames_proto, eval_pieces_ii]
  decide

/-- C2 (amended): the parameter-name patch is applied if and only if the new
name list's length equals the parameter count of the prototype RE-DERIVED
from the provider's function type (`numParams`), not the live function's
existing parameter count; on a mismatch the live prototype (names included)
is unchanged. -/
theorem param_patch_condition (A : Arch) (fd : Funcdata) (s : FactoryState)
    (fname : String) (proto : List TypeInfo) (cc : Option String) (dd : Bool)
    (pnames : List String) :
    ∃ fd2, update A (fun _ => some (.func fname proto cc dd pnames)) fd s
        = .ok (fd2, (parseFunc A proto cc dd s).2) ∧
      fd2.proto = (if pnames.length = numParams proto
        then { getPieces (parseFunc A proto cc dd s).2 (parseFunc A proto cc dd s).1 with
               innames := pnames }
        else fd.proto) := by
  obtain ⟨fd2, h1, _, _, h4⟩ := update_func_spec A fd s fname proto cc dd pnames
  exact ⟨fd2, h1, h4⟩

/-- C3 counterexample: the live function `fdg` has one existing parameter and
the new name list has one entry (so the patch applies, whichever count the
claim means), yet the commit also changes the return type (42 becomes the
derived node 0) and the variadic flag (true becomes false): the commit does
NOT leave the rest of the existing prototype unchanged. -/
theorem patch_frame_counterexample :
    ∃ fd2 s2,
      update archX (fun _ => some (.func "ft" [.int "int" 4, .int "int" 4] none false ["a"]))
          fdg emptyState = .ok (fd2, s2) ∧
      (["a"] : List String).length = fdg.proto.innames.length ∧
      fd2.proto.innames = ["a"] ∧
      fd2.proto.outtype ≠ fdg.proto.outtype ∧
      fd2.proto.dotdotdot ≠ fdg.proto.dotdotdot := by
  have hproto : (injectStep (patchNames fdg
      (getPieces (parseFunc archX [.int "int" 4, .int "int" 4] none false emptyState).2
        (parseFunc archX [.int "int" 4, .int "int" 4] none false emptyState).1) ["a"])).proto
      = { model := "__fastcall", outtype := 0, intypes := [0], innames := ["a"],
          dotdotdot := false } := by
    rw [(injectStep_fields _).2.2, patchNames_proto, eval_pieces_ii]
    decide
  refine ⟨_, _, update_func_eq archX fdg emptyState "ft" _ none false ["a"], rfl, ?_, ?_, ?_⟩
  · rw [hproto]
  · rw [hproto]; decide
  · rw [hproto]; decide

/-- C3 (amended): when the patch applies, the commit replaces the live
function's entire prototype with the one re-derived from the provider's type —
model, return type, parameter types and variadic flag all come from the
derived pieces — and only the parameter names are taken from the source's
name list; nothing of the pre-existing prototype is preserved. -/
theorem patch_commit_replaces_prototype (A : Arch) (fd : Funcdata) (s : FactoryState)
    (fname : String) (proto : List TypeInfo) (cc : Option String) (dd : Bool)
    (pnames : List String) (h : pnames.length = numParams proto) :
    ∃ fd2 pieces,
      update A (fun _ => some (.func fname proto cc dd pnames)) fd s
        = .ok (fd2, (parseFunc A proto cc dd s).2) ∧
      pieces = getPieces (parseFunc A proto cc dd s).2 (parseFunc A proto cc dd s).1 ∧
      fd2.proto = { pieces with innames := pnames } ∧
      pieces.model = resolveCC A cc ∧
      pieces.dotdotdot = dd := by
  obtain ⟨fd2, h1, _, _, h4⟩ := update_func_spec A fd s fname proto cc dd pnames
  obtain ⟨rid, pids, hlen, hp⟩ := getPieces_parseFunc A proto cc dd s
  rw [if_pos h] at h4
  exact ⟨fd2, _, h1, rfl, h4, by rw [hp], by rw [hp]⟩

/-- C3 witness: an empty parameter list with an empty name list; the patch
applies and the committed prototype is the derived one. -/
theorem patch_commit_witness :
    (([] : List String).length = numParams [TypeInfo.int "int" 4]) ∧
    ∃ fd2 pieces,
      update archX (fun _ => some (.func "ft" [TypeInfo.int "int" 4] none false []))
          fd0 emptyState
        = .ok (fd2, (parseFunc archX [TypeInfo.int "int" 4] none false emptyState).2) ∧
      pieces = getPieces (parseFunc archX [TypeInfo.int "int" 4] none false emptyState).2
        (parseFunc archX [TypeInfo.int "int" 4] none false emptyState).1 ∧
      fd2.proto = { pieces with innames := [] } ∧
      pieces.model = resolveCC archX none ∧
      pieces.dotdotdot = false :=
  ⟨rfl, patch_commit_replaces_prototype archX fd0 emptyState "ft"
    [TypeInfo.int "int" 4] none false [] rfl⟩

/-- C4: the strict entry point `findById` — a registry hit returns the cached
node with no further action; when the name is absent from both the registry
and the external type-info provider it raises `UnknownTypeError`; and every
successful resolution is either the cached node or the translation of the
`TypeInfo` obtained from the provider — it never synthesizes a node without
going through the provider. -/
theorem strict_lookup (A : Arch) (provider : String → Option TypeInfo) (n : String)
    (s : FactoryState) :
    (lookupReg s.registry n = none → provider n = none →
      findById A provider n s = .error (.unknownTypeError n)) ∧
    (∀ id, lookupReg s.registry n = some id → findById A provider n s = .ok (id, s)) ∧
    (∀ r, findById A provider n s = .ok r →
      (∃ id, lookupReg s.registry n = some id ∧ r = (id, s)) ∨
      (∃ ti, provider n = some ti ∧ r = parseTypeInfo A ti s)) := by
  refine ⟨fun h1 h2 => by simp [findById, h1, h2], fun id h => by simp [findById, h],
    fun r h => ?_⟩
  cases hl : lookupReg s.registry n with
  | some id =>
    left
    refine ⟨id, rfl, ?_⟩
    simp [findById, hl] at h
    exact h.symm
  | none =>
    cases hp : provider n with
    | none => simp [findById, hl, hp] at h
    | some ti =>
      right
      refine ⟨ti, rfl, ?_⟩
      simp [findById, hl, hp] at h
      exact h.symm

/-- Fixture: a name-keyed provider knowing only the name `"known"`. -/
def provX : String → Option TypeInfo :=
  fun m => if m = "known" then some (.int "int" 4) else none

/-- C4 witness: on the empty registry, an unknown name raises
`UnknownTypeError`, and a name the provider knows resolves to the translation
of the provider's `TypeInfo`. -/
theorem strict_lookup_witness :
    (lookupReg emptyState.registry "missing" = none) ∧
    (provX "missing" = none) ∧
    findById archX provX "missing" emptyState = .error (.unknownTypeError "missing") ∧
    ((∃ id, lookupReg emptyState.registry "known" = some id ∧
        parseTypeInfo archX (.int "int" 4) emptyState = (id, emptyState)) ∨
      (∃ ti, provX "known" = some ti ∧
        parseTypeInfo archX (.int "int" 4) emptyState = parseTypeInfo archX ti emptyState)) := by
  have h1 : lookupReg emptyState.registry "missing" = none := rfl
  have h2 : provX "missing" = none := by simp [provX]
  have hok : findById archX provX "known" emptyState
      = .ok (parseTypeInfo archX (.int "int" 4) emptyState) := by
    simp [findById, provX, lookupReg, emptyState]
  exact ⟨h1, h2, (strict_lookup archX provX "missing" emptyState).1 h1 h2,
    (strict_lookup archX provX "known" emptyState).2.2 _ hok⟩

/-- C5: calling-convention resolution in the prototype builder is total (it
is a plain function into names, never an error): the built code node carries
the resolved model, which honours an explicit registered name, replaces an
explicit unregistered name by the architecture default, and when no
convention is supplied tries the fixed `"__fastcall"` first, falling back to
the architecture default if that too is unregistered. -/
theorem calling_convention_resolution (A : Arch) (proto : List TypeInfo)
    (cc : Option String) (dd : Bool) (s : FactoryState) :
    ∃ rid pids,
      (parseFunc A proto cc dd s).2.arena.get? (parseFunc A proto cc dd s).1 =
        some (.codeNode (resolveCC A cc) rid pids dd) ∧
      resolveCC A cc = (match cc with
        | some nm => if A.models.contains nm then nm else A.defaultCC
        | none => if A.models.contains "__fastcall" then "__fastcall" else A.defaultCC) := by
  obtain ⟨rid, pids, _, hnode⟩ := parseFunc_node A proto cc dd s
  refine ⟨rid, pids, hnode, ?_⟩
  cases cc <;> rfl

/-- C6: an array `TypeInfo` of size greater than 0 translates to an array
node with exactly that element count over the translated element type; size
0 translates to a pointer node to the translated element type — never an
array node. -/
theorem array_translation (A : Arch) (name : String) (sz : Nat) (elem : TypeInfo)
    (s : FactoryState) :
    (parseTypeInfo A (.array name sz elem) s).2.arena.get?
        (parseTypeInfo A (.array name sz elem) s).1 =
      some (if sz > 0
        then .arrayNode sz (findByTypeInfo A elem s).1 name
        else .ptrNode A.addrSize (findByTypeInfo A elem s).1 A.wordSize name) := by
  by_cases h : sz > 0
  · simp [parseTypeInfo, h, allocReg, allocNode, setName, get?_append_len]
  · simp [parseTypeInfo, h, allocReg, allocNode, setName, get?_append_len]

/-- C7 (amended): each translated struct field keeps its name and stores
`static_cast<int4>` of the source offset — the source offset taken verbatim
whenever it fits in a signed 32-bit integer (below `2^31`), and the 32-bit
truncation of it otherwise. -/
theorem field_offsets (A : Arch) (name : String)
    (fields : List (Nat × String × TypeInfo)) (s : FactoryState) (j off : Nat)
    (fn : String) (fty : TypeInfo) (hj : fields.get? j = some (off, fn, fty)) :
    ∃ flds tid,
      (parseTypeInfo A (.struct name fields) s).2.arena.get?
          (parseTypeInfo A (.struct name fields) s).1 = some (.structNode name flds) ∧
      flds.get? j = some (int4cast off, fn, tid) ∧
      (off < 2147483648 → int4cast off = (off : Int)) := by
  simp only [parseTypeInfo]
  obtain ⟨tid, hget, _⟩ := parseFields_get A fields
    (setName name s.arena.length { s with arena := s.arena ++ [TypeNodeData.structNode name []] })
    j off fn fty hj
  refine ⟨(parseFields A fields (setName name s.arena.length
      { s with arena := s.arena ++ [TypeNodeData.structNode name []] })).1, tid, ?_, hget,
    int4cast_small off⟩
  have hlt : s.arena.length < (parseFields A fields (setName name s.arena.length
      { s with arena := s.arena ++ [TypeNodeData.structNode name []] })).2.arena.length := by
    have hmono := (parseFields_regLe A fields (setName name s.arena.length
      { s with arena := s.arena ++ [TypeNodeData.structNode name []] })).1
    have h2 : (setName name s.arena.length
        { s with arena := s.arena ++ [TypeNodeData.structNode name []] }).arena.length
        = s.arena.length + 1 := by
      simp [setName]
    omega
  exact get?_set_self _ _ _ hlt

/-- C7 witness: a single field at offset 8 is stored with offset 8. -/
theorem field_offsets_witness :
    (([(8, "value", TypeInfo.int "int" 4)] : List (Nat × String × TypeInfo)).get? 0
      = some (8, "value", TypeInfo.int "int" 4)) ∧
    ∃ flds tid,
      (parseTypeInfo archX (.struct "S" [(8, "value", .int "int" 4)]) emptyState).2.arena.get?
          (parseTypeInfo archX (.struct "S" [(8, "value", .int "int" 4)]) emptyState).1
        = some (.structNode "S" flds) ∧
      flds.get? 0 = some (int4cast 8, "value", tid) ∧
      (8 < 2147483648 → int4cast 8 = (8 : Int)) :=
  ⟨rfl, field_offsets archX "S" [(8, "value", .int "int" 4)] emptyState 0 8 "value"
    (.int "int" 4) rfl⟩

/-- C7 counterexample: a source offset of `2^31` is NOT stored verbatim — the
translated struct stores the truncated `-2^31` (the `static_cast<int4>` at
`typemanager.cc:137` wraps it), refuting "verbatim for all source offset
values". -/
theorem field_offsets_counterexample :
    ∃ flds,
      (parseTypeInfo archX (.struct "S" [(2147483648, "f", .int "int" 4)]) emptyState).2.arena.get?
          (parseTypeInfo archX (.struct "S" [(2147483648, "f", .int "int" 4)]) emptyState).1
        = some (.structNode "S" flds) ∧
      flds.get? 0 = some (int4cast 2147483648, "f", 1) ∧
      int4cast 2147483648 = -2147483648 ∧
      ((2147483648 : Nat) : Int) ≠ -2147483648 := by
  refine ⟨[(-2147483648, "f", 1)], ?_, ?_, by decide, by decide⟩
  · rw [eval_struct_big]
    rfl
  · decide

/-- C8 counterexample: patching `fd0` (named `"f"`) when the provider reports
the non-function type named `"int"` raises `SymbolIsNotAFunction "int"` — the
failure names the TYPE, not the function `"f"`. -/
theorem not_function_name_counterexample :
    update archX (fun _ => some (.int "int" 4)) fd0 emptyState
      = .error (.symbolIsNotAFunction "int") ∧
    fd0.name = "f" ∧ ("int" : String) ≠ "f" :=
  ⟨rfl, rfl, by decide⟩

/-- C8 (amended): when the provider has no type at the function's address the
patcher is a silent no-op returning the function and state unchanged; when
the provider's type, after unwrapping one pointer level, is not a Function
type, it raises `SymbolIsNotAFunction` naming that (unwrapped) TYPE — not the
function. -/
theorem no_type_and_not_function (A : Arch) (fd : Funcdata) (s : FactoryState) :
    (update A (fun _ => none) fd s = .ok (fd, s)) ∧
    ∀ t, (unwrapPtr t).toFunc = none →
      update A (fun _ => some t) fd s
        = .error (.symbolIsNotAFunction (unwrapPtr t).getName) := by
  refine ⟨rfl, fun t ht => ?_⟩
  simp [update, ht]

/-- C8 witness: the silent no-op and the named failure at concrete inputs. -/
theorem no_type_and_not_function_witness :
    (update archX (fun _ => none) fd0 emptyState = .ok (fd0, emptyState)) ∧
    ((unwrapPtr (.int "int" 4)).toFunc = none) ∧
    update archX (fun _ => some (.int "int" 4)) fd0 emptyState
      = .error (.symbolIsNotAFunction "int") :=
  ⟨(no_type_and_not_function archX fd0 emptyState).1, rfl,
    (no_type_and_not_function archX fd0 emptyState).2 (.int "int" 4) rfl⟩

/-- C9: patching with a pointer-to-function type produces exactly the same
result — same prototype update, same errors, same final function state and
registry state — as patching with the function type directly: the single
unwrap at `typemanager.cc:212`-`217` makes the two runs coincide. -/
theorem ptr_to_function_unwrap (A : Arch) (fd : Funcdata) (s : FactoryState)
    (pname fname : String) (proto : List TypeInfo) (cc : Option String) (dd : Bool)
    (pnames : List String) :
    update A (fun _ => some (.ptr pname (.func fname proto cc dd pnames))) fd s =
    update A (fun _ => some (.func fname proto cc dd pnames)) fd s := rfl

/-- C10: the patcher unwraps at most ONE level of pointer: whenever the
provider's type is a pointer whose immediate pointee is not a Function type
(in particular a pointer to a pointer to a function), the patch fails with
`SymbolIsNotAFunction` instead of unwrapping further. -/
theorem single_pointer_unwrap (A : Arch) (fd : Funcdata) (s : FactoryState)
    (pname : String) (t : TypeInfo) (h : t.toFunc = none) :
    update A (fun _ => some (.ptr pname t)) fd s
      = .error (.symbolIsNotAFunction t.getName) := by
  simp [update, unwrapPtr, TypeInfo.toPtr, h]

/-- C10 witness: a pointer to a pointer to a function fails, naming the inner
pointer type, rather than unwrapping twice and patching. -/
theorem single_pointer_unwrap_witness :
    ((TypeInfo.ptr "pf" (.func "g" [] none false [])).toFunc = none) ∧
    update archX (fun _ => some (.ptr "p" (.ptr "pf" (.func "g" [] none false []))))
        fd0 emptyState
      = .error (.symbolIsNotAFunction "pf") :=
  ⟨rfl, single_pointer_unwrap archX fd0 emptyState "p"
    (.ptr "pf" (.func "g" [] none false [])) rfl⟩

end Yagi
